import Mathlib

set_option linter.unusedVariables false

/-!
Shallow embedding of `mne/montages/montage.py`: the `Montage` record and
`read_montage`, which dispatches on the filename suffix of `kind` to one of
four format parsers, optionally filters by a name list, and builds the
result.

Files are modelled as the list of their lines, each line carrying its
trailing newline exactly as Python file iteration yields it (only a final
line may lack the newline).  Numeric fields hold exact rationals; the
floating-point functions used by the `.txt` branch (`np.deg2rad` and the
external `_sphere_to_cartesian`, whose source is not part of this
repository) are abstracted as explicit function parameters `d2r` and `s2c`,
so every statement below holds for any interpretation of them.
-/

set_option autoImplicit false

namespace Montages

deriving instance DecidableEq for Except

/-- Whitespace characters recognised by field splitting in `np.loadtxt`. -/
def isWs (c : Char) : Bool := c == ' ' || c == '\t' || c == '\n' || c == '\r'

/-- Split a character list at every character satisfying `p`, keeping
empty chunks, with `acc` the reversed current chunk. -/
def splitCharsAux (p : Char → Bool) : List Char → List Char → List (List Char)
  | [], acc => [acc.reverse]
  | c :: cs, acc =>
    if p c then acc.reverse :: splitCharsAux p cs []
    else splitCharsAux p cs (c :: acc)

/-- Split a character list at every character satisfying `p`. -/
def splitChars (p : Char → Bool) (cs : List Char) : List (List Char) :=
  splitCharsAux p cs []

/-- Split a line into whitespace-separated tokens. -/
def splitWs (s : String) : List String :=
  ((splitChars isWs s.toList).map String.mk).filter (fun t => t != "")

/-- Drop everything from the first `#` on, as `np.loadtxt` does with its
default comment character. -/
def stripComment (s : String) : String :=
  String.mk (s.toList.takeWhile (fun c => c != '#'))

/-- Numeric value of a run of decimal digits. -/
def digitsVal (cs : List Char) : ℕ :=
  cs.foldl (fun a c => 10 * a + (c.toNat - 48)) 0

/-- Parse a decimal floating-point literal (optional sign, digits with an
optional fractional part, optional exponent) into an exact rational; this
is the shape `float()` accepts for `np.loadtxt` fields. -/
def parseQ? (s : String) : Option ℚ :=
  let cs := s.toList
  let sgnRest : ℚ × List Char :=
    match cs with
    | '-' :: rest => (-1, rest)
    | '+' :: rest => (1, rest)
    | _ => (1, cs)
  let sgn := sgnRest.1
  let cs0 := sgnRest.2
  let intPart := cs0.takeWhile Char.isDigit
  let cs1 := cs0.dropWhile Char.isDigit
  let fracRest : List Char × List Char :=
    match cs1 with
    | '.' :: rest => (rest.takeWhile Char.isDigit, rest.dropWhile Char.isDigit)
    | _ => ([], cs1)
  let fracPart := fracRest.1
  let cs2 := fracRest.2
  if intPart.isEmpty && fracPart.isEmpty then none
  else
    let mant : ℚ :=
      (digitsVal intPart : ℚ) + (digitsVal fracPart : ℚ) / ((10 : ℚ) ^ fracPart.length)
    match cs2 with
    | [] => some (sgn * mant)
    | e :: rest =>
      if e == 'e' || e == 'E' then
        let esRest : Bool × List Char :=
          match rest with
          | '-' :: r => (true, r)
          | '+' :: r => (false, r)
          | _ => (false, rest)
        let ds := esRest.2.takeWhile Char.isDigit
        let tail := esRest.2.dropWhile Char.isDigit
        if ds.isEmpty || !tail.isEmpty then none
        else
          let p : ℚ := (10 : ℚ) ^ digitsVal ds
          some (sgn * (if esRest.1 then mant / p else mant * p))
      else none

/-- Truncation to four bytes performed by the `S4` field of the `np.dtype`
used for the `.sfp`, `.txt` and `.csd` label columns (labels in scope are
ASCII, so bytes coincide with characters). -/
def truncS4 (s : String) : String := String.mk (s.toList.take 4)

/-- Model of Python `str.endswith`. -/
def strEndsWith (s t : String) : Bool := t.toList.isSuffixOf s.toList

/-- Model of Python `str.startswith`. -/
def strStartsWith (s t : String) : Bool := t.toList.isPrefixOf s.toList

/-- Substring containment, Python's `pat in s`. -/
def containsSub (s pat : String) : Bool :=
  (List.range (s.toList.length + 1)).any
    (fun i => pat.toList.isPrefixOf (s.toList.drop i))

/-- Final component of the path split, `op.split(kind)[-1]` on line 111:
everything after the last slash. -/
def basename (s : String) : String :=
  ((splitChars (fun c => c == '/') s.toList).map String.mk).getLastD s

/-- Model of `os.path.join` for the two-argument POSIX case used to locate
the montage file. -/
def joinPath (p k : String) : String :=
  if strStartsWith k "/" then k
  else if p == "" then k
  else if strEndsWith p "/" then p ++ k
  else p ++ "/" ++ k

/-- Directory holding the bundled layout files, `op.dirname(__file__)` in
the source (line 60). -/
def builtinPath : String := "mne/montages"

/-- Positions are rows of three coordinates. -/
abbrev Pos3 : Type := ℚ × ℚ × ℚ

/-- Value stored in the `pos` field of a Montage.  The parsers build a
two-dimensional `(N, 3)` array; line 110's `pos[sel]` indexes it with the
tuple `sel`, which is numpy multi-axis basic indexing and can therefore
also leave a single row (one kept name) or a bare scalar (two kept
names). -/
inductive PosData where
  | mat (rows : List Pos3)
  | row (r : Pos3)
  | scalar (x : ℚ)
  deriving DecidableEq, Repr

/-- Leading-axis length of a position value, Python `len(pos)`: the row
count of a matrix, the three coordinates of a single row; `len()` of a
zero-dimensional numpy scalar raises, rendered here as zero. -/
def PosData.length : PosData → ℕ
  | .mat rows => rows.length
  | .row _ => 3
  | .scalar _ => 0

/-- Sensor layout record built by `read_montage` (class `Montage`,
lines 12-36 of the source): positions, channel names and a kind tag. -/
structure Montage where
  pos : PosData
  names : List String
  kind : String
  deriving DecidableEq, Repr

/-- Failure modes of `read_montage`, following the spec's error taxonomy:
the `ValueError` of the unsupported-format branch, a missing file, a row
`np.loadtxt` cannot convert, the empty-filter unpacking `ValueError`, and
the `IndexError` of fancy indexing past the end of `pos`. -/
inductive MontageError where
  | unsupportedFormat (msg : String)
  | ioFailure
  | parseFailure
  | noMatchingNames
  | indexOutOfRange
  deriving DecidableEq, Repr

/-- Row-wise conversion that fails as a whole when one row fails, as
`np.loadtxt` does. -/
def mapOpt {α β : Type _} (f : α → Option β) : List α → Option (List β)
  | [] => some []
  | a :: l =>
    match f a, mapOpt f l with
    | some b, some bs => some (b :: bs)
    | _, _ => none

/-- Model of Python `enumerate`, indices starting at `n`. -/
def enumFromN {α : Type _} (n : ℕ) : List α → List (ℕ × α)
  | [] => []
  | a :: l => (n, a) :: enumFromN (n + 1) l

/-- Data rows `np.loadtxt` extracts from a file: skip `skiprows` lines,
strip comments, split the rest on whitespace, ignore blank rows. -/
def loadRows (skiprows : ℕ) (ls : List String) : List (List String) :=
  (((ls.drop skiprows).map stripComment).map splitWs).filter (fun r => r != [])

/-- Row of an `.sfp` file under dtype `S4, f8, f8, f8` (lines 61-67):
label column and direct Cartesian coordinates. -/
def parseSfpRow (ts : List String) : Option (String × Pos3) :=
  match ts with
  | [l, a, b, c] =>
    match parseQ? a, parseQ? b, parseQ? c with
    | some x, some y, some z => some (truncS4 l, (x, y, z))
    | _, _, _ => none
  | _ => none

/-- Row of three plain floats, for the `.elc` position block (line 85). -/
def parse3 (ts : List String) : Option Pos3 :=
  match ts with
  | [a, b, c] =>
    match parseQ? a, parseQ? b, parseQ? c with
    | some x, some y, some z => some (x, y, z)
    | _, _, _ => none
  | _ => none

/-- Row of a `.txt` file under dtype `S4, f8, f8` (lines 86-95): both
angle arguments handed to the conversion are `deg2rad(theta)`; `phi` is
parsed but never used. -/
def parseTxtRow (d2r : ℚ → ℚ) (s2c : ℚ → ℚ → ℚ → Pos3) (ts : List String) :
    Option (String × Pos3) :=
  match ts with
  | [l, t, p] =>
    match parseQ? t, parseQ? p with
    | some th, some _ => some (truncS4 l, s2c (d2r th) (d2r th) 1)
    | _, _ => none
  | _ => none

/-- Row of a `.csd` file (lines 96-104): eight typed columns, of which
`x`, `y`, `z` are used while `theta`, `phi`, `radius`, `off_sph` are read
but ignored. -/
def parseCsdRow (ts : List String) : Option (String × Pos3) :=
  match ts with
  | [l, t, p, r, a, b, c, o] =>
    match parseQ? t, parseQ? p, parseQ? r, parseQ? a, parseQ? b, parseQ? c, parseQ? o with
    | some _, some _, some _, some x, some y, some z, some _ =>
      some (truncS4 l, (x, y, z))
    | _, _, _, _, _, _, _ => none
  | _ => none

/-- One scanning loop of the `.elc` reader: consume lines up to and
including the first one containing `pat`, returning the lines before it
and the lines after it (lines 73-80). -/
def elcSplit (pat : String) : List String → List String × List String
  | [] => ([], [])
  | l :: rest =>
    if containsSub l pat then ([], rest)
    else
      let ab := elcSplit pat rest
      (l :: ab.1, ab.2)

/-- Termination test of the label loop, `not line or not set(line) -
set([' '])` on line 82: true exactly when every character of the line is a
space (vacuously so for the empty string). -/
def isBlankTerm (l : String) : Bool := l.toList.all (fun c => c == ' ')

/-- Strip leading and trailing copies of one character, Python
`str.strip(c)`. -/
def stripChar (c : Char) (s : String) : String :=
  String.mk (((s.toList.dropWhile (fun x => x == c)).reverse.dropWhile
    (fun x => x == c)).reverse)

/-- Label cleanup of line 84, `line.strip(' ').strip('\n')`. -/
def stripLabel (l : String) : String := stripChar '\n' (stripChar ' ' l)

/-- Label accumulation loop of the `.elc` reader (lines 81-84). -/
def elcLabels : List String → List String
  | [] => []
  | l :: rest =>
    if isBlankTerm l then [] else stripLabel l :: elcLabels rest

/-- Format dispatch of `read_montage` (lines 59-106): pick the parser from
the suffix of `kind` and produce the raw `(positions, labels)` pair.  The
filesystem is a map from a path to the lines of the file stored there;
`d2r` and `s2c` stand for `np.deg2rad` and the external
`_sphere_to_cartesian`. -/
def dispatchParse (d2r : ℚ → ℚ) (s2c : ℚ → ℚ → ℚ → Pos3)
    (fs : String → Option (List String)) (kind : String)
    (path : Option String) : Except MontageError (List Pos3 × List String) :=
  let p := match path with
    | none => builtinPath
    | some q => q
  let fname := joinPath p kind
  if strEndsWith kind ".sfp" then
    match fs fname with
    | none => .error .ioFailure
    | some ls =>
      match mapOpt parseSfpRow (loadRows 0 ls) with
      | none => .error .parseFailure
      | some rows => .ok (rows.map Prod.snd, rows.map Prod.fst)
  else if strEndsWith kind ".elc" then
    match fs fname with
    | none => .error .ioFailure
    | some ls =>
      let afterPos := (elcSplit "Positions\n" ls).2
      let posLab := elcSplit "Labels\n" afterPos
      match mapOpt parse3 (loadRows 0 posLab.1) with
      | none => .error .parseFailure
      | some ps => .ok (ps, elcLabels posLab.2)
  else if strEndsWith kind ".txt" then
    match fs fname with
    | none => .error .ioFailure
    | some ls =>
      match mapOpt (parseTxtRow d2r s2c) (loadRows 1 ls) with
      | none => .error .parseFailure
      | some rows => .ok (rows.map Prod.snd, rows.map Prod.fst)
  else if strEndsWith kind ".csd" then
    match fs fname with
    | none => .error .ioFailure
    | some ls =>
      match mapOpt parseCsdRow (loadRows 2 ls) with
      | none => .error .parseFailure
      | some rows => .ok (rows.map Prod.snd, rows.map Prod.fst)
  else .error (.unsupportedFormat ("Currently " ++ kind ++ " is not supported."))

/-- Comprehension `[(i, e) for i, e in enumerate(names) if e in names]` of
line 109, exactly as written in the source: indices enumerate the `names`
argument and the membership test `e in names` is against that same
argument, so the loaded labels are never consulted. -/
def keptPairs (ns : List String) : List (ℕ × String) :=
  (enumFromN 0 ns).filter (fun ie => decide (ie.2 ∈ ns))

/-- Column access into one position row, the second axis of `pos[i, j]`
on an `(N, 3)` array: columns past index 2 raise `IndexError`. -/
def coordAt (r : Pos3) (j : ℕ) : Option ℚ :=
  match j with
  | 0 => some r.1
  | 1 => some r.2.1
  | 2 => some r.2.2
  | _ => none

/-- Name filtering of lines 108-110.  `sel` comes out of `zip(*...)` as a
Python tuple, so `pos[sel]` on the two-dimensional position array is
numpy multi-axis basic indexing, not row selection: one kept name yields
the row `pos[sel[0]]`, two kept names yield the scalar
`pos[sel[0], sel[1]]`, and three or more raise
`IndexError: too many indices` on a two-axis array, as does any axis
index out of range.  The empty-match unpacking `ValueError` precedes the
indexing. -/
def filterNames (ns : List String) (pos : List Pos3) :
    Except MontageError (PosData × List String) :=
  if keptPairs ns = [] then .error .noMatchingNames
  else
    match (keptPairs ns).map Prod.fst with
    | [i] =>
      match pos.get? i with
      | none => .error .indexOutOfRange
      | some r => .ok (.row r, (keptPairs ns).map Prod.snd)
    | [i, j] =>
      match pos.get? i with
      | none => .error .indexOutOfRange
      | some r =>
        match coordAt r j with
        | none => .error .indexOutOfRange
        | some x => .ok (.scalar x, (keptPairs ns).map Prod.snd)
    | _ => .error .indexOutOfRange

/-- Shallow embedding of `read_montage` (lines 39-112).  The `scale`
argument is accepted, as in the source, and never consulted. -/
def read_montage (d2r : ℚ → ℚ) (s2c : ℚ → ℚ → ℚ → Pos3)
    (fs : String → Option (List String)) (kind : String)
    (names : Option (List String)) (path : Option String)
    (scale : Bool) : Except MontageError Montage :=
  match dispatchParse d2r s2c fs kind path with
  | .error e => .error e
  | .ok pn =>
    match names with
    | none => .ok { pos := PosData.mat pn.1, names := pn.2, kind := basename kind }
    | some ns =>
      match filterNames ns pn.1 with
      | .error e => .error e
      | .ok pn2 => .ok { pos := pn2.1, names := pn2.2, kind := basename kind }

/-! Concrete fixtures used to evaluate the embedding at specific inputs. -/

/-- Identity-like stand-in for the spherical conversion, used where a
concrete instance of the abstract `s2c` parameter is needed. -/
def s2cId : ℚ → ℚ → ℚ → Pos3 := fun a b r => (a, b, r)

/-- Filesystem holding one `.sfp` file with labels `A`, `B`, `C` at rows
`(1,2,3)`, `(4,5,6)`, `(7,8,9)`. -/
def fsSfpABC : String → Option (List String) := fun f =>
  if f = "mne/montages/test.sfp" then
    some ["A 1 2 3\n", "B 4 5 6\n", "C 7 8 9\n"]
  else none

/-- Filesystem holding one `.elc` file whose label block contains a blank
line between two labels. -/
def fsElcBlankMid : String → Option (List String) := fun f =>
  if f = "mne/montages/test.elc" then
    some ["ref\n", "Positions\n", "0 0 0\n", "1 1 1\n", "2 2 2\n",
      "Labels\n", "A\n", "\n", "B\n"]
  else none

/-- Filesystem holding one `.elc` file that matches the spec's format
description exactly: one position row, one label, and a terminating blank
line. -/
def fsElcTerm : String → Option (List String) := fun f =>
  if f = "mne/montages/bad.elc" then
    some ["Positions\n", "0 0 0\n", "Labels\n", "A\n", "\n"]
  else none

/-- Filesystem holding one `.sfp` file addressed by an absolute path with
directory components. -/
def fsAbsSfp : String → Option (List String) := fun f =>
  if f = "/d/sub/test.sfp" then some ["A 1 2 3\n"] else none

/-! Helper lemmas about the filtering comprehension. -/

theorem enumFromN_map_snd {α : Type _} :
    ∀ (n : ℕ) (l : List α), (enumFromN n l).map Prod.snd = l := by
  intro n l
  induction l generalizing n with
  | nil => rfl
  | cons a t ih => simp [enumFromN, ih]

theorem filter_enum_of_sub (ns : List String) :
    ∀ (n : ℕ) (l : List String), (∀ a ∈ l, a ∈ ns) →
      (enumFromN n l).filter (fun ie => decide (ie.2 ∈ ns)) = enumFromN n l := by
  intro n l
  induction l generalizing n with
  | nil => intro _; rfl
  | cons a t ih =>
    intro hsub
    have ha : a ∈ ns := hsub a (List.mem_cons_self a t)
    simp only [enumFromN, List.filter_cons, decide_eq_true_eq, ha, if_pos]
    rw [ih (n + 1) (fun b hb => hsub b (List.mem_cons_of_mem a hb))]

/-- The membership test of line 109 is tautological, so every enumerated
pair survives the filter. -/
theorem keptPairs_eq_enum (ns : List String) : keptPairs ns = enumFromN 0 ns :=
  filter_enum_of_sub ns 0 ns (fun _ ha => ha)

/-- Whenever the filtering step succeeds, the names it returns are the
requested list itself, whatever the loaded labels were. -/
theorem filterNames_ok_names (ns : List String) (pos : List Pos3)
    {pn : PosData × List String} (h : filterNames ns pos = .ok pn) :
    pn.2 = ns := by
  unfold filterNames at h
  split at h
  · exact Except.noConfusion h
  · split at h
    · split at h
      · exact Except.noConfusion h
      · injection h with h2
        rw [← h2]
        simp [keptPairs_eq_enum, enumFromN_map_snd]
    · split at h
      · exact Except.noConfusion h
      · split at h
        · exact Except.noConfusion h
        · injection h with h2
          rw [← h2]
          simp [keptPairs_eq_enum, enumFromN_map_snd]
    · exact Except.noConfusion h

/-- Unfolding of `parseTxtRow` on an explicit three-token row. -/
theorem parseTxtRow_eq (d2r : ℚ → ℚ) (s2c : ℚ → ℚ → ℚ → Pos3)
    (l t p : String) :
    parseTxtRow d2r s2c [l, t, p] =
      match parseQ? t, parseQ? p with
      | some th, some _ => some (truncS4 l, s2c (d2r th) (d2r th) 1)
      | _, _ => none := rfl

/-- Unfolding of `parseCsdRow` on an explicit eight-token row. -/
theorem parseCsdRow_eq (l t p r a b c o : String) :
    parseCsdRow [l, t, p, r, a, b, c, o] =
      match parseQ? t, parseQ? p, parseQ? r, parseQ? a, parseQ? b, parseQ? c,
          parseQ? o with
      | some _, some _, some _, some x, some y, some z, some _ =>
        some (truncS4 l, (x, y, z))
      | _, _, _, _, _, _, _ => none := rfl

/-- Truncated labels have at most four characters. -/
theorem truncS4_length_le (s : String) : (truncS4 s).length ≤ 4 := by
  show (s.toList.take 4).length ≤ 4
  rw [List.length_take]
  exact min_le_left _ _

/-! Theorems for the claims. -/

/-- C1: the claim says filtering retains exactly the sensors whose loaded
label is in the allow-list, with `positions` the loaded positions of
those sensors reordered to match.  The code does not: on a `.sfp` file
with labels `A`, `B`, `C` at rows `(1,2,3)`, `(4,5,6)`, `(7,8,9)` and
`names=["A","C"]`, line 109's tautological test keeps both requested
names with `sel = (0, 1)`, and line 110's `pos[sel]` is multi-axis
indexing, yielding the single scalar `pos[0, 1] = 2` — row 0, column 1 —
as the whole `pos` field, not the positions of `A` and `C`. -/
theorem c1_filter_yields_scalar_not_rows :
    read_montage id s2cId fsSfpABC "test.sfp" (some ["A", "C"]) none true =
      .ok { pos := .scalar 2, names := ["A", "C"], kind := "test.sfp" } := by
  with_unfolding_all rfl

/-- C2: the claim says an allow-list sharing no entry with the loaded
labels fails with `NoMatchingNames`.  The code instead returns a Montage:
with file labels `A`, `B`, `C` and `names=["X"]` the tautological
membership test of line 109 keeps `"X"` with `sel = (0,)`, and the call
succeeds with the first file row `pos[(0,)] = pos[0]` as its position. -/
theorem c2_zero_overlap_returns_montage :
    read_montage id s2cId fsSfpABC "test.sfp" (some ["X"]) none true =
      .ok { pos := .row (1, 2, 3), names := ["X"], kind := "test.sfp" } := by
  with_unfolding_all rfl

/-- C3: for every non-empty `names` argument, the membership test of
line 109 compares each requested name against the requested list itself,
so whenever the call returns a Montage its `names` field is the requested
list verbatim, independent of which labels the file contains. -/
theorem c3_requested_names_returned_verbatim (d2r : ℚ → ℚ)
    (s2c : ℚ → ℚ → ℚ → Pos3) (fs : String → Option (List String))
    (kind : String) (ns : List String) (path : Option String) (sc : Bool)
    (m : Montage) (hne : ns ≠ [])
    (h : read_montage d2r s2c fs kind (some ns) path sc = .ok m) :
    m.names = ns := by
  unfold read_montage at h
  split at h
  · exact Except.noConfusion h
  · split at h
    next x hnone =>
      exact Option.noConfusion hnone
    next x ns2 hns =>
      split at h
      · exact Except.noConfusion h
      · next pn2 hfn =>
        injection hns with hns2
        subst hns2
        injection h with h2
        rw [← h2]
        exact filterNames_ok_names _ _ hfn

/-- Witness for C3 at a concrete input: requesting `["B", "Q"]` from the
`A`/`B`/`C` file succeeds (with the scalar `pos[0, 1]` as position) and
returns exactly the names `["B", "Q"]`, although `Q` is not in the file
at all. -/
theorem c3_witness :
    (["B", "Q"] : List String) ≠ [] ∧
      Montage.names { pos := .scalar 2, names := ["B", "Q"], kind := "test.sfp" } =
        ["B", "Q"] :=
  ⟨by decide,
    c3_requested_names_returned_verbatim id s2cId fsSfpABC "test.sfp"
      ["B", "Q"] none true
      { pos := .scalar 2, names := ["B", "Q"], kind := "test.sfp" }
      (by decide) (by with_unfolding_all rfl)⟩

/-- C4: the `.txt` row conversion is a function of the theta column only.
Two well-formed rows with the same label and the same parsed theta value
but arbitrary phi columns produce the same output, for every
interpretation of the degree conversion and of the spherical-to-Cartesian
conversion, because line 92-93 passes `deg2rad(theta)` as both angles. -/
theorem c4_txt_positions_ignore_phi (d2r : ℚ → ℚ) (s2c : ℚ → ℚ → ℚ → Pos3)
    (l t1 t2 p1 p2 : String) (r1 r2 : String × Pos3)
    (ht : parseQ? t1 = parseQ? t2)
    (h1 : parseTxtRow d2r s2c [l, t1, p1] = some r1)
    (h2 : parseTxtRow d2r s2c [l, t2, p2] = some r2) :
    r1.2 = r2.2 := by
  rw [parseTxtRow_eq] at h1 h2
  rw [← ht] at h2
  split at h1
  · next th v1 hth1 hp1 =>
    split at h2
    · next th2 v2 hth2 hp2 =>
      rw [hth1] at hth2
      injection hth2 with hth
      injection h1 with h1e
      injection h2 with h2e
      rw [← h1e, ← h2e, hth]
    · exact Option.noConfusion h2
  · exact Option.noConfusion h1

/-- Witness for C4 at a concrete input: rows `Fp1 45 10` and `Fp1 45 20`
parse to the same converted position. -/
theorem c4_witness :
    parseQ? "45" = parseQ? "45" ∧
      parseTxtRow id s2cId ["Fp1", "45", "10"] =
        some ("Fp1", ((45 : ℚ), 45, 1)) ∧
      parseTxtRow id s2cId ["Fp1", "45", "20"] =
        some ("Fp1", ((45 : ℚ), 45, 1)) ∧
      (("Fp1", ((45 : ℚ), 45, 1)) : String × Pos3).2 =
        (("Fp1", ((45 : ℚ), 45, 1)) : String × Pos3).2 :=
  ⟨rfl, by with_unfolding_all rfl, by with_unfolding_all rfl,
    c4_txt_positions_ignore_phi id s2cId "Fp1" "45" "45" "10" "20" _ _ rfl
      (by with_unfolding_all rfl) (by with_unfolding_all rfl)⟩

/-- C5: the claim says label accumulation stops at the first blank or
whitespace-only line and never adds one to the labels.  Lines from file
iteration carry their trailing newline, and the test on line 82 treats
only spaces — not the newline — as ignorable, so a blank line `"\n"` in
the label block does not terminate the loop and is appended as the empty
label: the file with label block `A`, blank, `B` yields names
`["A", "", "B"]` instead of `["A"]`. -/
theorem c5_blank_line_becomes_label :
    read_montage id s2cId fsElcBlankMid "test.elc" none none true =
      .ok { pos := .mat [(0, 0, 0), (1, 1, 1), (2, 2, 2)], names := ["A", "", "B"],
            kind := "test.elc" } := by
  with_unfolding_all rfl

/-- C6: for every `kind` whose suffix is none of `.sfp`, `.elc`, `.txt`,
`.csd`, the call fails with the unsupported-format error naming `kind`,
for every filesystem whatsoever — no file access can influence the
result — and with no fallback or partial result. -/
theorem c6_unsupported_format_no_io (d2r : ℚ → ℚ) (s2c : ℚ → ℚ → ℚ → Pos3)
    (kind : String)
    (h1 : strEndsWith kind ".sfp" = false)
    (h2 : strEndsWith kind ".elc" = false)
    (h3 : strEndsWith kind ".txt" = false)
    (h4 : strEndsWith kind ".csd" = false) :
    ∀ (fs : String → Option (List String)) (names : Option (List String))
      (path : Option String) (sc : Bool),
      read_montage d2r s2c fs kind names path sc =
        .error (.unsupportedFormat
          ("Currently " ++ kind ++ " is not supported.")) := by
  intro fs names path sc
  unfold read_montage dispatchParse
  simp [h1, h2, h3, h4]

/-- Witness for C6 at a concrete input: `"foo.xyz"` on an empty
filesystem. -/
theorem c6_witness :
    read_montage id s2cId (fun _ => none) "foo.xyz" none none true =
      .error (.unsupportedFormat
        ("Currently " ++ "foo.xyz" ++ " is not supported.")) :=
  c6_unsupported_format_no_io id s2cId "foo.xyz" (by decide) (by decide)
    (by decide) (by decide) (fun _ => none) none none true

/-- C7: the claim says every Montage returned from a well-formed file
satisfies `len(positions) == len(names)`.  A `.elc` file matching the
spec's own format description — N position rows, N labels, then a
terminating blank line — violates it: the blank terminator `"\n"` is
accumulated as an extra empty label (see C5), giving one position and two
names. -/
theorem c7_spec_wellformed_elc_breaks_invariant :
    ∃ m : Montage,
      read_montage id s2cId fsElcTerm "bad.elc" none none true = .ok m ∧
        m.pos.length ≠ m.names.length :=
  ⟨{ pos := .mat [(0, 0, 0)], names := ["A", ""], kind := "bad.elc" },
    by with_unfolding_all rfl, by decide⟩

/-- C8: the `scale` flag has no effect on any field of the result nor on
whether the call fails: the two calls are definitionally the same term,
since the embedded body never consults `scale`, exactly as the source
never reads it. -/
theorem c8_scale_has_no_effect (d2r : ℚ → ℚ) (s2c : ℚ → ℚ → ℚ → Pos3)
    (fs : String → Option (List String)) (kind : String)
    (names : Option (List String)) (path : Option String) :
    read_montage d2r s2c fs kind names path true =
      read_montage d2r s2c fs kind names path false := rfl

/-- C9: every successful call stores on the result the input `kind` with
any directory component stripped, i.e. the part after the last slash
(`op.split(kind)[-1]`, line 111). -/
theorem c9_kind_is_basename (d2r : ℚ → ℚ) (s2c : ℚ → ℚ → ℚ → Pos3)
    (fs : String → Option (List String)) (kind : String)
    (names : Option (List String)) (path : Option String) (sc : Bool)
    (m : Montage)
    (h : read_montage d2r s2c fs kind names path sc = .ok m) :
    m.kind = basename kind := by
  unfold read_montage at h
  split at h
  · exact Except.noConfusion h
  · split at h
    · injection h with h2
      rw [← h2]
    · split at h
      · exact Except.noConfusion h
      · injection h with h2
        rw [← h2]

/-- Witness for C9 at a concrete input: loading `"/d/sub/test.sfp"` stores
`kind = "test.sfp"`. -/
theorem c9_witness :
    Montage.kind { pos := .mat [(1, 2, 3)], names := ["A"], kind := "test.sfp" } =
      basename "/d/sub/test.sfp" :=
  c9_kind_is_basename id s2cId fsAbsSfp "/d/sub/test.sfp" none none true
    { pos := .mat [(1, 2, 3)], names := ["A"], kind := "test.sfp" }
    (by with_unfolding_all rfl)

/-- C10: the `.txt` and `.csd` row parsers store the label column
truncated to at most four bytes (`S4` dtype fields), and a long label is
never an error: any successfully parsed row keeps parsing when its label
is replaced by any other string. -/
theorem c10_txt_csd_labels_truncated (d2r : ℚ → ℚ) (s2c : ℚ → ℚ → ℚ → Pos3)
    (l l2 lx t p ct cp cr cx cy cz co : String) (rt rc : String × Pos3)
    (htxt : parseTxtRow d2r s2c [l, t, p] = some rt)
    (hcsd : parseCsdRow [l2, ct, cp, cr, cx, cy, cz, co] = some rc) :
    rt.1 = truncS4 l ∧ rt.1.length ≤ 4 ∧
      rc.1 = truncS4 l2 ∧ rc.1.length ≤ 4 ∧
      (parseTxtRow d2r s2c [lx, t, p]).isSome ∧
      (parseCsdRow [lx, ct, cp, cr, cx, cy, cz, co]).isSome := by
  rw [parseTxtRow_eq] at htxt
  rw [parseCsdRow_eq] at hcsd
  split at htxt
  · next th v hth hp =>
    split at hcsd
    · next w1 w2 w3 x y z w4 hq1 hq2 hq3 hq4 hq5 hq6 hq7 =>
      injection htxt with htxte
      injection hcsd with hcsde
      refine ⟨?_, ?_, ?_, ?_, ?_, ?_⟩
      · rw [← htxte]
      · rw [← htxte]; exact truncS4_length_le l
      · rw [← hcsde]
      · rw [← hcsde]; exact truncS4_length_le l2
      · rw [parseTxtRow_eq, hth, hp]; rfl
      · rw [parseCsdRow_eq, hq1, hq2, hq3, hq4, hq5, hq6, hq7]; rfl
    · exact Option.noConfusion hcsd
  · exact Option.noConfusion htxt

/-- Witness for C10 at a concrete input: a nine-character `.txt` label and
a ten-character `.csd` label are stored as their first four characters. -/
theorem c10_witness :
    (("Long", ((45 : ℚ), 45, 1)) : String × Pos3).1 = truncS4 "LongLabel" ∧
      (("Long", ((45 : ℚ), 45, 1)) : String × Pos3).1.length ≤ 4 ∧
      (("Elec", ((4 : ℚ), 5, 6)) : String × Pos3).1 = truncS4 "Electrode1" ∧
      (("Elec", ((4 : ℚ), 5, 6)) : String × Pos3).1.length ≤ 4 ∧
      (parseTxtRow id s2cId ["AnotherVeryLongLabel", "45", "10"]).isSome ∧
      (parseCsdRow
        ["AnotherVeryLongLabel", "1", "2", "3", "4", "5", "6", "0"]).isSome :=
  c10_txt_csd_labels_truncated id s2cId "LongLabel" "Electrode1"
    "AnotherVeryLongLabel" "45" "10" "1" "2" "3" "4" "5" "6" "0"
    ("Long", ((45 : ℚ), 45, 1)) ("Elec", ((4 : ℚ), 5, 6))
    (by with_unfolding_all rfl) (by with_unfolding_all rfl)

end Montages
